import Mathlib

/-!
Shallow embedding of the notebook
`references/rnn_practice/rnn_implementations/4_Dynamic_LSTM_RNN.ipynb`
from the repository `afcarl/deep_music`, together with theorems checking
the natural-language description of that notebook against the code.

The notebook is a linear script: global configuration constants, a
`generateData` function producing the synthetic echo task, a TensorFlow
graph (placeholders, LSTM cell, `tf.nn.dynamic_rnn`, reshape, affine
logits, sparse softmax cross entropy, Adam optimizer) and a training loop
over `n_epochs` epochs of `n_batches` mini-batches each, followed by a
plot of the collected losses.  Machine integers are modelled as `Nat`,
real-valued tensors as functions into `ℚ`, and numpy arrays of known
shape as functions out of `Fin`-types.
-/

set_option maxRecDepth 10000

/-! ### Global configuration parameters (notebook cell 2) -/

def n_epochs : Nat := 20

def total_series_length : Nat := 50000

def truncated_backprop_steps : Nat := 15

def state_size : Nat := 4

def n_classes : Nat := 2

/-- Number of steps the input is shifted to the right. -/
def echo_step : Nat := 3

def batch_size : Nat := 5

def n_batches : Nat := total_series_length / batch_size / truncated_backprop_steps

def n_hidden : Nat := 20

/-! ### Data generation (notebook cell 4, `generateData`)

`np.random.choice(n_classes, total_series_length)` is modelled by an
arbitrary function `rand : Fin total_series_length → Nat`; the library
guarantee that every drawn value lies in `{0, …, n_classes-1}` becomes a
hypothesis where a claim needs it. -/

/-- Number of columns produced by `x.reshape((batch_size, -1))`: numpy
infers the `-1` dimension as `total_series_length / batch_size`. -/
def cols : Nat := total_series_length / batch_size

/-- Model of `np.roll(v, k)` on a length-`total_series_length` vector:
element `i` of the result is element `(i - k) mod total_series_length`
of the input. -/
def np_roll (v : Fin total_series_length → Nat) (k : Nat) :
    Fin total_series_length → Nat :=
  fun i =>
    v ⟨(i.val + (total_series_length - k % total_series_length)) % total_series_length,
       Nat.mod_lt _ i.pos⟩

/-- Model of `v.reshape((batch_size, -1))` in row-major order. -/
def reshapeRows (v : Fin total_series_length → Nat) :
    Fin batch_size → Fin cols → Nat :=
  fun b j =>
    v ⟨b.val * cols + j.val, by
        have hb : b.val < 5 := b.isLt
        have hj : j.val < 10000 := j.isLt
        show b.val * 10000 + j.val < 50000
        omega⟩

/-- Row-major flattening of a `(batch_size, cols)` array back to a
length-`total_series_length` vector. -/
def flattenRows (m : Fin batch_size → Fin cols → Nat) :
    Fin total_series_length → Nat :=
  fun i =>
    m ⟨i.val / cols, by
        have hi : i.val < 50000 := i.isLt
        show i.val / 10000 < 5
        omega⟩
      ⟨i.val % cols, by
        show i.val % 10000 < 10000
        omega⟩

/-- Model of the notebook's `generateData`: draw `x`, set
`y = np.roll(x, echo_step)`, zero the first `echo_step` entries of `y`,
and reshape both to `(batch_size, -1)`. -/
def generateData (rand : Fin total_series_length → Nat) :
    (Fin batch_size → Fin cols → Nat) × (Fin batch_size → Fin cols → Nat) :=
  let x := rand
  let y_rolled := np_roll x echo_step
  let y := fun i : Fin total_series_length =>
    if i.val < echo_step then 0 else y_rolled i
  (reshapeRows x, reshapeRows y)

/-! ### Placeholders and feed shapes (notebook cell 6)

`tf.placeholder(tf.float32, shape=[batch_size, truncated_backprop_steps])`
declares a graph input of a fully specified shape.  TensorFlow's feed
semantics for a fully specified shape is modelled by `acceptsFeed`: a fed
array is accepted exactly when its shape matches the declared one. -/

structure TFPlaceholder where
  shape : List Nat

def X_placeholder : TFPlaceholder := ⟨[batch_size, truncated_backprop_steps]⟩

def y_placeholder : TFPlaceholder := ⟨[batch_size, truncated_backprop_steps]⟩

/-- Feed-shape check of a placeholder whose shape is fully specified. -/
def acceptsFeed (p : TFPlaceholder) (s : List Nat) : Bool := p.shape == s

/-! ### Trace of notebook operations

The notebook executes top to bottom; cell 14 runs the nested training
loop.  Each observable operation is an `Op`, and the full execution is
the list `notebookTrace`. -/

inductive Op where
  | defGenerateData
  | declarePlaceholders
  | buildLSTMCell
  | callDynamicRnn
  | reshapeOutputs
  | buildLoss
  | buildOptimizer
  | printEpochHeader
  | callGenerateData
  | sessRun
  | printLoss
  | plotLosses
deriving DecidableEq

/-- Operations of one iteration of the inner batch loop: the session is
run on the mini-batch, and the loss is printed when `batch % 100 == 0`. -/
def batchOps (b : Nat) : List Op :=
  [Op.sessRun] ++ (if b % 100 == 0 then [Op.printLoss] else [])

/-- Operations of one epoch: print the epoch header, call `generateData`,
then run the inner loop over all batch indices. -/
def epochOps (_e : Nat) : List Op :=
  [Op.printEpochHeader, Op.callGenerateData]
    ++ (List.range n_batches).flatMap batchOps

/-- Graph-construction cells, in the order they appear in the notebook:
the `generateData` definition (cell 4), placeholders (cell 6), LSTM cell
and `tf.nn.dynamic_rnn` (cell 7), reshapes (cell 9), loss and optimizer
(cells 10 and 12). -/
def graphBuildOps : List Op :=
  [Op.defGenerateData, Op.declarePlaceholders, Op.buildLSTMCell,
   Op.callDynamicRnn, Op.reshapeOutputs, Op.buildLoss, Op.buildOptimizer]

/-- Operations of the training session (cell 14): all epochs in order. -/
def trainOps : List Op := (List.range n_epochs).flatMap epochOps

/-- Full execution trace of the notebook: graph construction, training,
and the final plot cell. -/
def notebookTrace : List Op := graphBuildOps ++ (trainOps ++ [Op.plotLosses])

/-- Ordering of operations in the notebook's execution trace: some
occurrence of `a` is strictly before some occurrence of `b`. -/
def opPrecedes (a b : Op) : Prop :=
  ∃ (i j : Nat), i < j ∧ notebookTrace[i]? = some a ∧ notebookTrace[j]? = some b

/-! ### Loss pipeline (notebook cells 9, 10 and 12)

`outputs` from `tf.nn.dynamic_rnn` has shape
`(batch_size, truncated_backprop_steps, n_hidden)`; real tensors are
modelled over `ℚ`, and the library op
`tf.nn.sparse_softmax_cross_entropy_with_logits` is an opaque
per-position parameter `ce`, since it is not implemented in the
repository. -/

/-- Model of `temp = tf.reshape(outputs, [-1, n_hidden])` (row-major). -/
def temp
    (outputs : Fin batch_size → Fin truncated_backprop_steps → Fin n_hidden → ℚ) :
    Fin (batch_size * truncated_backprop_steps) → Fin n_hidden → ℚ :=
  fun i h =>
    outputs
      ⟨i.val / truncated_backprop_steps, by
        have hi : i.val < 75 := i.isLt
        show i.val / 15 < 5
        omega⟩
      ⟨i.val % truncated_backprop_steps, by
        show i.val % 15 < 15
        omega⟩
      h

/-- Model of `y_temp = tf.reshape(y_placeholder, [-1])` (row-major). -/
def y_temp (y : Fin batch_size → Fin truncated_backprop_steps → Nat) :
    Fin (batch_size * truncated_backprop_steps) → Nat :=
  fun i =>
    y ⟨i.val / truncated_backprop_steps, by
        have hi : i.val < 75 := i.isLt
        show i.val / 15 < 5
        omega⟩
      ⟨i.val % truncated_backprop_steps, by
        show i.val % 15 < 15
        omega⟩

/-- Model of the logits `l = tf.matmul(temp, V) + c` (cell 10). -/
def l (outputs : Fin batch_size → Fin truncated_backprop_steps → Fin n_hidden → ℚ)
    (V : Fin n_hidden → Fin n_classes → ℚ) (c : Fin n_classes → ℚ) :
    Fin (batch_size * truncated_backprop_steps) → Fin n_classes → ℚ :=
  fun i k => (∑ j : Fin n_hidden, temp outputs i j * V j k) + c k

/-- Model of `tf.reduce_mean` on a vector of `n` rationals. -/
def reduce_mean {n : Nat} (f : Fin n → ℚ) : ℚ := (∑ i, f i) / (n : ℚ)

/-- Model of the notebook's `loss` node: the mean over all flattened
positions of the library cross entropy `ce` applied to the logits and
the flattened labels. -/
def loss
    (ce : (Fin n_classes → ℚ) → Nat → ℚ)
    (outputs : Fin batch_size → Fin truncated_backprop_steps → Fin n_hidden → ℚ)
    (V : Fin n_hidden → Fin n_classes → ℚ) (c : Fin n_classes → ℚ)
    (y : Fin batch_size → Fin truncated_backprop_steps → Nat) : ℚ :=
  reduce_mean (fun i => ce (l outputs V c i) (y_temp y i))

/-! ### Training loop state threading (notebook cell 14)

LSTM cell and hidden states are `(batch_size, n_hidden)` matrices over
`ℚ`.  The value returned by `sess.run` for `final_state` depends on the
fed state and on the batch position; it is abstracted as a `step`
function, so every theorem below holds for the actual run as one
instantiation. -/

def StateMat : Type := Fin batch_size → Fin n_hidden → ℚ

/-- Model of `np.zeros((batch_size, n_hidden))`. -/
def zeroStateMat : StateMat := fun _ _ => 0

/-- Pair of cell state and hidden state, as in `LSTMStateTuple`. -/
def LSTMState : Type := StateMat × StateMat

def zeroLSTMState : LSTMState := (zeroStateMat, zeroStateMat)

/-- Inner batch loop of one epoch: for each batch index the current
state is fed (recorded in the returned list) and the state returned by
the session becomes the current state of the next batch. -/
def runBatchList (step : Nat → Nat → LSTMState → LSTMState) (e : Nat) :
    List Nat → LSTMState → List LSTMState × LSTMState
  | [], cur => ([], cur)
  | b :: bs, cur =>
    let final := step e b cur
    let rest := runBatchList step e bs final
    (cur :: rest.1, rest.2)

/-- Fed states of a single epoch: the loop starts from freshly zeroed
cell and hidden states (`_current_cell_state`, `_current_hidden_state`)
and runs over all batch indices. -/
def epochFedStates (step : Nat → Nat → LSTMState → LSTMState) (e : Nat) :
    List LSTMState :=
  (runBatchList step e (List.range n_batches) zeroLSTMState).1

/-- Fed states of the whole training session, epoch after epoch; each
epoch re-initialises the state to zeros before its first batch. -/
def allFedStates (step : Nat → Nat → LSTMState → LSTMState) : List LSTMState :=
  (List.range n_epochs).flatMap (fun e => epochFedStates step e)

/-- Result of running the session on a list of batch indices in order,
starting from `cur`: the state after the last of those batches. -/
def applySteps (step : Nat → Nat → LSTMState → LSTMState) (e : Nat) :
    List Nat → LSTMState → LSTMState
  | [], cur => cur
  | b :: bs, cur => applySteps step e bs (step e b cur)

/-- State fed to batch `b` of epoch `e`: all earlier batches of the
epoch applied to the zero state. -/
def fedAt (step : Nat → Nat → LSTMState → LSTMState) (e b : Nat) : LSTMState :=
  applySteps step e (List.range b) zeroLSTMState

/-! ### Collected losses (notebook cells 14 and 15)

`training_losses` starts empty and every batch appends the loss value of
that batch; the loss value computed by `sess.run` at epoch `e`, batch
`b` is abstracted as `lossOf e b`.  The plot cell passes the list to
`plt.plot` unchanged. -/

def training_losses {α : Type} (lossOf : Nat → Nat → α) : List α :=
  (List.range n_epochs).foldl
    (fun acc e =>
      (List.range n_batches).foldl (fun acc2 b => acc2 ++ [lossOf e b]) acc)
    []

/-- Data handed to `plt.plot` by the final cell: exactly the
`training_losses` list. -/
def plotted {α : Type} (lossOf : Nat → Nat → α) : List α :=
  training_losses lossOf

/-! ### Mini-batch slicing (notebook cell 14) -/

/-- Model of `start_idx = batch * truncated_backprop_steps`. -/
def start_idx (b : Nat) : Nat := b * truncated_backprop_steps

/-- Model of `end_idx = start_idx + truncated_backprop_steps`. -/
def end_idx (b : Nat) : Nat := start_idx b + truncated_backprop_steps

/-- Model of `batch_x = X_data[:, start_idx:end_idx]`: for every batch
index below `n_batches` the slice is total, so the fed array has shape
`(batch_size, truncated_backprop_steps)`. -/
def batch_x (X : Fin batch_size → Fin cols → Nat) (b : Nat)
    (hb : b < n_batches) :
    Fin batch_size → Fin truncated_backprop_steps → Nat :=
  fun r j =>
    X r ⟨start_idx b + j.val, by
      have hbn : b < 666 := hb
      have hj : j.val < 15 := j.isLt
      show b * 15 + j.val < 10000
      omega⟩

/-! ### Sequential cell execution (error propagation)

A notebook cell transforms the interpreter state or raises; raising is
modelled by `Except`.  `runCells` executes cells in order with no
handler anywhere, exactly as the notebook does. -/

def runCells {σ ε : Type} : List (σ → Except ε σ) → σ → Except ε σ
  | [], s => Except.ok s
  | cl :: cls, s =>
    match cl s with
    | Except.error err => Except.error err
    | Except.ok s' => runCells cls s'

/-- Cells of the notebook that run library calls, in execution order:
graph construction (placeholders, LSTM cell, dynamic unroll, reshape,
loss, optimizer), the training session (whose body generates data and
runs the session), and the plot cell. -/
def notebookCells {σ ε : Type}
    (declarePh buildCell callRnn reshapeOut buildLossCell buildOptCell
     trainSession plotCell : σ → Except ε σ) : List (σ → Except ε σ) :=
  [declarePh, buildCell, callRnn, reshapeOut, buildLossCell, buildOptCell,
   trainSession, plotCell]

/-! ## Theorems -/

/-- Flattening a reshaped vector row-major recovers the vector. -/
lemma flattenRows_reshapeRows (v : Fin total_series_length → Nat)
    (i : Fin total_series_length) : flattenRows (reshapeRows v) i = v i := by
  simp only [flattenRows, reshapeRows]
  exact congrArg v (Fin.ext (Nat.div_add_mod' i.val cols))

/-- C1: `generateData` returns a pair `(x, y)` of integer arrays realising
the echo task: both have shape
`(batch_size, total_series_length / batch_size) = (5, 10000)`, and in the
row-major flattened view of length 50000, `y[i] = x[i - echo_step]` for
every `i ≥ echo_step = 3` and `y[i] = 0` for every `i < echo_step`. -/
theorem generateData_echo_task (rand : Fin total_series_length → Nat)
    (i : Fin total_series_length) :
    batch_size = 5 ∧ cols = 10000 ∧ cols = total_series_length / batch_size ∧
    total_series_length = batch_size * cols ∧
    (i.val < echo_step → flattenRows (generateData rand).2 i = 0) ∧
    (echo_step ≤ i.val →
      flattenRows (generateData rand).2 i
        = flattenRows (generateData rand).1
            ⟨i.val - echo_step, lt_of_le_of_lt (Nat.sub_le _ _) i.isLt⟩) := by
  refine ⟨rfl, by decide, rfl, by decide, ?_, ?_⟩
  · intro hlt
    simp only [generateData]
    rw [flattenRows_reshapeRows]
    rw [if_pos hlt]
  · intro hge
    have h3 : 3 ≤ i.val := hge
    have hi : i.val < 50000 := i.isLt
    simp only [generateData]
    rw [flattenRows_reshapeRows, flattenRows_reshapeRows]
    rw [if_neg (by omega)]
    simp only [np_roll]
    apply congrArg rand
    apply Fin.ext
    show (i.val + (50000 - 3 % 50000)) % 50000 = i.val - 3
    omega

/-- Witness for C1 at a concrete input: the flattened `y` is zero at
index 1 and echoes the flattened `x` at index 10. -/
theorem generateData_echo_task_witness :
    flattenRows (generateData (fun i => i.val % n_classes)).2 ⟨1, by decide⟩ = 0 ∧
    flattenRows (generateData (fun i => i.val % n_classes)).2 ⟨10, by decide⟩
      = flattenRows (generateData (fun i => i.val % n_classes)).1 ⟨7, by decide⟩ :=
  ⟨(generateData_echo_task (fun i => i.val % n_classes) ⟨1, by decide⟩).2.2.2.2.1
      (by decide),
   (generateData_echo_task (fun i => i.val % n_classes) ⟨10, by decide⟩).2.2.2.2.2
      (by decide)⟩

/-- C10: when every random draw lies below `n_classes` (the guarantee of
`np.random.choice(n_classes, …)`), every element of both arrays returned
by `generateData` lies in `{0, …, n_classes - 1} = {0, 1}`. -/
theorem generateData_labels_lt (rand : Fin total_series_length → Nat)
    (hr : ∀ i, rand i < n_classes) (b : Fin batch_size) (j : Fin cols) :
    (generateData rand).1 b j < n_classes ∧
    (generateData rand).2 b j < n_classes := by
  constructor
  · simp only [generateData, reshapeRows]
    exact hr _
  · simp only [generateData, reshapeRows]
    split
    · decide
    · simp only [np_roll]
      exact hr _

/-- Witness for C10 at a concrete input. -/
theorem generateData_labels_lt_witness :
    (generateData (fun i => i.val % n_classes)).1 ⟨1, by decide⟩ ⟨2, by decide⟩
        < n_classes ∧
    (generateData (fun i => i.val % n_classes)).2 ⟨1, by decide⟩ ⟨2, by decide⟩
        < n_classes :=
  generateData_labels_lt (fun i => i.val % n_classes)
    (fun _ => Nat.mod_lt _ (by decide)) ⟨1, by decide⟩ ⟨2, by decide⟩

/-- C9: with `n_batches = total_series_length / batch_size /
truncated_backprop_steps = 666`, every column slice `[b*15, b*15+15)`
taken by the training loop lies within the 10000 data columns and is
full width, and the last 10 columns are never fed. -/
theorem slices_in_bounds (b : Nat) (hb : b < n_batches) :
    n_batches = 666 ∧ end_idx b ≤ cols ∧
    (∀ j : Fin truncated_backprop_steps, start_idx b + j.val < cols) ∧
    (∀ j : Nat, cols - 10 ≤ j → ¬(start_idx b ≤ j ∧ j < end_idx b)) := by
  have hb' : b < 666 := hb
  refine ⟨by decide, ?_, ?_, ?_⟩
  · show b * 15 + 15 ≤ 10000
    omega
  · intro j
    have hj : j.val < 15 := j.isLt
    show b * 15 + j.val < 10000
    omega
  · intro j hj hcon
    obtain ⟨h1, h2⟩ := hcon
    have hj' : 9990 ≤ j := hj
    have h2' : j < b * 15 + 15 := h2
    omega

/-- Witness for C9 at the last batch index. -/
theorem slices_in_bounds_witness :
    665 < n_batches ∧ end_idx 665 ≤ cols :=
  ⟨by decide, (slices_in_bounds 665 (by decide)).2.1⟩

/-- C5: the scalar loss equals the mean, over all
`batch_size * truncated_backprop_steps = 75` flattened positions, of the
library sparse softmax cross entropy `ce` applied to the flattened
integer labels and the logits `reshape(outputs, [-1, n_hidden]) · V + c`;
the affine map is the only computation between the library calls. -/
theorem loss_is_mean_cross_entropy
    (ce : (Fin n_classes → ℚ) → Nat → ℚ)
    (outputs : Fin batch_size → Fin truncated_backprop_steps → Fin n_hidden → ℚ)
    (V : Fin n_hidden → Fin n_classes → ℚ) (c : Fin n_classes → ℚ)
    (y : Fin batch_size → Fin truncated_backprop_steps → Nat) :
    batch_size * truncated_backprop_steps = 75 ∧
    loss ce outputs V c y =
      (∑ i : Fin (batch_size * truncated_backprop_steps),
          ce (fun k => (∑ j : Fin n_hidden, temp outputs i j * V j k) + c k)
             (y_temp y i))
        / ((batch_size * truncated_backprop_steps : Nat) : ℚ) :=
  ⟨rfl, rfl⟩

/-- Witness for C5 at a concrete instantiation of all graph inputs. -/
theorem loss_is_mean_cross_entropy_witness :
    loss (fun v _ => v ⟨0, by decide⟩) (fun _ _ _ => 1) (fun _ _ => 1)
        (fun _ => 0) (fun _ _ => 0) =
      (∑ i : Fin (batch_size * truncated_backprop_steps),
          (fun (v : Fin n_classes → ℚ) (_ : Nat) => v ⟨0, by decide⟩)
            (fun k => (∑ j : Fin n_hidden,
                temp (fun _ _ _ => (1 : ℚ)) i j * (fun _ _ => (1 : ℚ)) j k)
              + (fun _ => (0 : ℚ)) k)
            (y_temp (fun _ _ => 0) i))
        / ((batch_size * truncated_backprop_steps : Nat) : ℚ) :=
  (loss_is_mean_cross_entropy (fun v _ => v ⟨0, by decide⟩) (fun _ _ _ => 1)
    (fun _ _ => 1) (fun _ => 0) (fun _ _ => 0)).2

/-- C2 counterexample: the graph does not accept input batches of any
sequence length other than `truncated_backprop_steps`; `X_placeholder`
has the fully specified shape `[batch_size, truncated_backprop_steps]`,
so no feed of shape `[batch_size, len]` with `len ≠ 15` is accepted. -/
theorem no_varying_sequence_length :
    ¬ ∃ len : Nat, len ≠ truncated_backprop_steps ∧
        acceptsFeed X_placeholder [batch_size, len] = true := by
  rintro ⟨len, hne, hacc⟩
  simp only [acceptsFeed, X_placeholder, beq_iff_eq, List.cons.injEq,
    and_true] at hacc
  exact hne hacc.2.symm

/-- C2 (amended): the notebook calls the library dynamic-unroll primitive
`tf.nn.dynamic_rnn`, but `X_placeholder` fixes the feed shape: a feed is
accepted exactly when its shape is
`[batch_size, truncated_backprop_steps] = [5, 15]`, so the sequence
length cannot vary from one feed to the next. -/
theorem fixed_feed_shape (s : List Nat) :
    (acceptsFeed X_placeholder s = true ↔
      s = [batch_size, truncated_backprop_steps]) ∧
    Op.callDynamicRnn ∈ notebookTrace := by
  constructor
  · simp only [acceptsFeed, X_placeholder, beq_iff_eq]
    exact eq_comm
  · rw [notebookTrace]
    exact List.mem_append_left _ (by decide)

/-- Witness for C2's amended theorem at the one accepted shape. -/
theorem fixed_feed_shape_witness :
    acceptsFeed X_placeholder [5, 15] = true :=
  (fixed_feed_shape [5, 15]).1.mpr (by decide)

/-- Every operation of an inner-loop iteration is a session run or a
loss print. -/
lemma mem_batchOps (b : Nat) (x : Op) (hx : x ∈ batchOps b) :
    x = Op.sessRun ∨ x = Op.printLoss := by
  unfold batchOps at hx
  rcases List.mem_append.1 hx with h | h
  · simp at h
    exact Or.inl h
  · split at h
    · simp at h
      exact Or.inr h
    · simp at h

/-- Every operation of an epoch is the header print, the data-generation
call, a session run or a loss print. -/
lemma mem_epochOps (e : Nat) (x : Op) (hx : x ∈ epochOps e) :
    x = Op.printEpochHeader ∨ x = Op.callGenerateData ∨
    x = Op.sessRun ∨ x = Op.printLoss := by
  unfold epochOps at hx
  rcases List.mem_append.1 hx with h | h
  · simp at h
    rcases h with h | h
    · exact Or.inl h
    · exact Or.inr (Or.inl h)
  · rcases List.mem_flatMap.1 h with ⟨b, _, hb⟩
    rcases mem_batchOps b x hb with h | h
    · exact Or.inr (Or.inr (Or.inl h))
    · exact Or.inr (Or.inr (Or.inr h))

/-- Every operation of the training session is one of the four loop
operations. -/
lemma mem_trainOps (x : Op) (hx : x ∈ trainOps) :
    x = Op.printEpochHeader ∨ x = Op.callGenerateData ∨
    x = Op.sessRun ∨ x = Op.printLoss := by
  unfold trainOps at hx
  rcases List.mem_flatMap.1 hx with ⟨e, _, he⟩
  exact mem_epochOps e x he

/-- An operation found at an index below 7 of the trace comes from the
graph-construction prefix. -/
lemma notebookTrace_getElem_lt7 (j : Nat) (x : Op) (hj : j < 7)
    (hx : notebookTrace[j]? = some x) : graphBuildOps[j]? = some x := by
  have h7 : j < graphBuildOps.length := hj
  rw [notebookTrace, List.getElem?_append_left h7] at hx
  exact hx

/-- The placeholder declaration occurs only at index 1 of the trace. -/
lemma declare_only_at_one (j : Nat)
    (hx : notebookTrace[j]? = some Op.declarePlaceholders) : j = 1 := by
  rcases Nat.lt_or_ge j 7 with hj | hj
  · have h := notebookTrace_getElem_lt7 j _ hj hx
    interval_cases j <;> simp_all [graphBuildOps]
  · exfalso
    rw [notebookTrace] at hx
    have h7 : graphBuildOps.length ≤ j := hj
    rw [List.getElem?_append_right h7] at hx
    have hmem := List.getElem?_mem hx
    rcases List.mem_append.1 hmem with h | h
    · rcases mem_trainOps _ h with h | h | h | h <;> exact Op.noConfusion h
    · simp at h

/-- Any data-generation call, session run or loss print occurs at index
at least 7 of the trace, after the whole graph is built. -/
lemma loopOp_ge7 (j : Nat) (x : Op) (hx : notebookTrace[j]? = some x)
    (hloop : x = Op.callGenerateData ∨ x = Op.sessRun ∨ x = Op.printLoss) :
    7 ≤ j := by
  by_contra hlt
  push_neg at hlt
  have h := notebookTrace_getElem_lt7 j x hlt hx
  rcases hloop with rfl | rfl | rfl <;>
    (interval_cases j <;> simp_all [graphBuildOps])

/-- C3 counterexample: in the notebook's execution trace no call of
`generateData` precedes the placeholder declarations — training data is
not generated first, it is generated inside the training loop after the
whole graph is built. -/
theorem dataGen_not_before_placeholders :
    ¬ opPrecedes Op.callGenerateData Op.declarePlaceholders := by
  rintro ⟨i, j, hij, hi, hj⟩
  have h1 := loopOp_ge7 i _ hi (Or.inl rfl)
  have h2 := declare_only_at_one j hj
  omega

/-- C3 (amended): the `generateData` function definition executes first,
then the placeholders, LSTM cell, dynamic unroll, reshape, loss and
optimizer, in that order; every data-generation call, session run and
loss print executes after the optimizer is built, and within each epoch
the data-generation call precedes every session run. -/
theorem notebook_execution_order (j : Nat) (x : Op)
    (hx : notebookTrace[j]? = some x)
    (hloop : x = Op.callGenerateData ∨ x = Op.sessRun ∨ x = Op.printLoss) :
    6 < j ∧
    notebookTrace[0]? = some Op.defGenerateData ∧
    notebookTrace[1]? = some Op.declarePlaceholders ∧
    notebookTrace[2]? = some Op.buildLSTMCell ∧
    notebookTrace[3]? = some Op.callDynamicRnn ∧
    notebookTrace[4]? = some Op.reshapeOutputs ∧
    notebookTrace[5]? = some Op.buildLoss ∧
    notebookTrace[6]? = some Op.buildOptimizer ∧
    (∀ e : Nat, (epochOps e)[1]? = some Op.callGenerateData) ∧
    (∀ e k : Nat, (epochOps e)[k]? = some Op.sessRun → 1 < k) := by
  have h7 := loopOp_ge7 j x hx hloop
  have hpre : ∀ (i : Nat), i < 7 → notebookTrace[i]? = graphBuildOps[i]? := by
    intro i hi
    rw [notebookTrace, List.getElem?_append_left (show i < graphBuildOps.length from hi)]
  refine ⟨by omega, ?_, ?_, ?_, ?_, ?_, ?_, ?_,
    fun e => by
      simp only [epochOps, List.cons_append, List.nil_append,
        List.getElem?_cons_succ, List.getElem?_cons_zero], ?_⟩
  · rw [hpre 0 (by omega)]; simp [graphBuildOps]
  · rw [hpre 1 (by omega)]; simp [graphBuildOps]
  · rw [hpre 2 (by omega)]; simp [graphBuildOps]
  · rw [hpre 3 (by omega)]; simp [graphBuildOps]
  · rw [hpre 4 (by omega)]; simp [graphBuildOps]
  · rw [hpre 5 (by omega)]; simp [graphBuildOps]
  · rw [hpre 6 (by omega)]; simp [graphBuildOps]
  · intro e k hk
    by_contra hle
    push_neg at hle
    interval_cases k
    · simp only [epochOps, List.cons_append, List.nil_append,
        List.getElem?_cons_zero, Option.some.injEq] at hk
      exact Op.noConfusion hk
    · simp only [epochOps, List.cons_append, List.nil_append,
        List.getElem?_cons_succ, List.getElem?_cons_zero,
        Option.some.injEq] at hk
      exact Op.noConfusion hk

/-- Position of the first data-generation call in the trace: index 8,
just inside epoch 0. -/
lemma notebookTrace_getElem_eight :
    notebookTrace[8]? = some Op.callGenerateData := by
  have h1 : (epochOps 0)[1]? = some Op.callGenerateData := by
    simp only [epochOps, List.cons_append, List.nil_append,
      List.getElem?_cons_succ, List.getElem?_cons_zero]
  have h2 : trainOps[1]? = some Op.callGenerateData := by
    rw [trainOps, show n_epochs = 20 from rfl, show (20 : Nat) = 19 + 1 from rfl,
        List.range_succ_eq_map, List.flatMap_cons]
    rw [List.getElem?_append_left]
    · exact h1
    · obtain ⟨hlen, -⟩ := List.getElem?_eq_some_iff.1 h1
      exact hlen
  rw [notebookTrace,
      List.getElem?_append_right (show graphBuildOps.length ≤ 8 by simp [graphBuildOps])]
  have hidx : 8 - graphBuildOps.length = 1 := by simp [graphBuildOps]
  rw [hidx, List.getElem?_append_left]
  · exact h2
  · obtain ⟨hlen, -⟩ := List.getElem?_eq_some_iff.1 h2
    exact hlen

/-- Witness for C3's amended theorem: index 8 of the trace is the first
data-generation call, and it lies after the graph-construction prefix. -/
theorem notebook_execution_order_witness :
    notebookTrace[8]? = some Op.callGenerateData ∧ 6 < 8 :=
  ⟨notebookTrace_getElem_eight,
   (notebook_execution_order 8 Op.callGenerateData notebookTrace_getElem_eight
      (Or.inl rfl)).1⟩

/-- C4 counterexample: at batch index 1 (of any epoch) the session is
run but the loss of that mini-batch is not printed, since
`1 % 100 ≠ 0`. -/
theorem printLoss_not_every_batch :
    1 < n_batches ∧ Op.sessRun ∈ batchOps 1 ∧ Op.printLoss ∉ batchOps 1 := by
  decide

/-- C4 (amended): for every epoch below `n_epochs` and batch index below
`n_batches`, a mini-batch is fed to the session; the loss of that
mini-batch is printed exactly when `batch % 100 == 0`. -/
theorem session_feeds_every_batch (e b : Nat) (he : e < n_epochs)
    (hb : b < n_batches) :
    Op.sessRun ∈ batchOps b ∧
    (Op.printLoss ∈ batchOps b ↔ b % 100 = 0) ∧
    Op.sessRun ∈ epochOps e ∧ Op.sessRun ∈ trainOps := by
  have h1 : Op.sessRun ∈ batchOps b := by
    unfold batchOps
    exact List.mem_append_left _ (List.mem_singleton.2 rfl)
  have h2 : Op.sessRun ∈ epochOps e := by
    unfold epochOps
    exact List.mem_append_right _
      (List.mem_flatMap_of_mem (List.mem_range.2 hb) h1)
  have h3 : Op.sessRun ∈ trainOps := by
    unfold trainOps
    exact List.mem_flatMap_of_mem (List.mem_range.2 he) h2
  refine ⟨h1, ?_, h2, h3⟩
  unfold batchOps
  constructor
  · intro h
    rcases List.mem_append.1 h with h | h
    · simp at h
    · split at h
      · next hcond => simpa using hcond
      · simp at h
  · intro h
    apply List.mem_append_right
    rw [if_pos (by simpa using h)]
    simp

/-- Witness for C4's amended theorem at epoch 0, batch 1. -/
theorem session_feeds_every_batch_witness :
    0 < n_epochs ∧ 1 < n_batches ∧ Op.sessRun ∈ batchOps 1 :=
  ⟨by decide, by decide,
    (session_feeds_every_batch 0 1 (by decide) (by decide)).1⟩

/-- Folding appends of singletons over a list builds the mapped list. -/
lemma foldl_append_map {α : Type} (f : Nat → α) :
    ∀ (bl : List Nat) (init : List α),
      bl.foldl (fun acc b => acc ++ [f b]) init = init ++ bl.map f
  | [], init => by simp
  | b :: bs, init => by
    rw [List.foldl_cons, List.map_cons]
    rw [foldl_append_map f bs (init ++ [f b])]
    simp [List.append_assoc]

/-- The nested epoch/batch fold builds the concatenation of the per-epoch
mapped lists. -/
lemma foldl_double_loop {α : Type} (g : Nat → Nat → α) (B : Nat) :
    ∀ (el : List Nat) (init : List α),
      el.foldl
          (fun acc e =>
            (List.range B).foldl (fun acc2 b => acc2 ++ [g e b]) acc) init
        = init ++ el.flatMap (fun e => (List.range B).map (g e))
  | [], init => by simp
  | e :: es, init => by
    rw [List.foldl_cons, List.flatMap_cons]
    rw [foldl_append_map (g e) (List.range B) init]
    rw [foldl_double_loop g B es (init ++ (List.range B).map (g e))]
    rw [List.append_assoc]

/-- The appended loss list equals epoch-wise concatenation of per-batch
losses. -/
lemma training_losses_eq_flatMap {α : Type} (lossOf : Nat → Nat → α) :
    training_losses lossOf
      = (List.range n_epochs).flatMap
          (fun e => (List.range n_batches).map (lossOf e)) := by
  unfold training_losses
  rw [foldl_double_loop lossOf n_batches (List.range n_epochs) []]
  rw [List.nil_append]

/-- Length of a concatenation of equal-length chunks over `range E`. -/
lemma length_flatMap_const {α : Type} (g : Nat → List α) (B : Nat)
    (hg : ∀ e, (g e).length = B) :
    ∀ E : Nat, ((List.range E).flatMap g).length = E * B
  | 0 => by simp
  | E + 1 => by
    rw [List.range_succ, List.flatMap_append, List.length_append,
        length_flatMap_const g B hg E, List.flatMap_singleton, hg E,
        Nat.succ_mul]

/-- Indexing a concatenation of equal-length chunks over `range E`:
position `e * B + b` falls in chunk `e` at offset `b`. -/
lemma getElem_flatMap_range {α : Type} (g : Nat → List α) (B : Nat)
    (hg : ∀ e, (g e).length = B) :
    ∀ (E e b : Nat), e < E → b < B →
      ((List.range E).flatMap g)[e * B + b]? = (g e)[b]?
  | 0, e, _, he, _ => absurd he (Nat.not_lt_zero e)
  | E + 1, e, b, he, hb => by
    rw [List.range_succ, List.flatMap_append]
    rcases Nat.lt_or_ge e E with hlt | hge
    · rw [List.getElem?_append_left]
      · exact getElem_flatMap_range g B hg E e b hlt hb
      · rw [length_flatMap_const g B hg E]
        have h1 : e * B + b < (e + 1) * B := by rw [Nat.succ_mul]; omega
        have h2 : (e + 1) * B ≤ E * B := Nat.mul_le_mul_right B hlt
        omega
    · have heq : e = E := by omega
      subst heq
      rw [List.getElem?_append_right (by rw [length_flatMap_const g B hg e]; omega)]
      rw [length_flatMap_const g B hg e]
      have hsub : e * B + b - e * B = b := by omega
      rw [hsub, List.flatMap_singleton]

/-- C6: after training, `training_losses` contains exactly one loss per
mini-batch processed, appended in execution order —
`n_epochs * n_batches = 20 * 666 = 13320` entries, the entry at position
`e * n_batches + b` being the loss of epoch `e`, batch `b` — and the
final cell plots exactly this list. -/
theorem training_losses_complete {α : Type} (lossOf : Nat → Nat → α)
    (e b : Nat) (he : e < n_epochs) (hb : b < n_batches) :
    (training_losses lossOf).length = n_epochs * n_batches ∧
    n_epochs * n_batches = 13320 ∧
    (training_losses lossOf)[e * n_batches + b]? = some (lossOf e b) ∧
    plotted lossOf = training_losses lossOf := by
  have hlen : ∀ e', ((List.range n_batches).map (lossOf e')).length = n_batches := by
    intro e'
    rw [List.length_map, List.length_range]
  refine ⟨?_, by decide, ?_, rfl⟩
  · rw [training_losses_eq_flatMap,
        length_flatMap_const _ n_batches hlen n_epochs]
  · rw [training_losses_eq_flatMap,
        getElem_flatMap_range _ n_batches hlen n_epochs e b he hb,
        List.getElem?_map, List.getElem?_range hb]
    rfl

/-- Witness for C6 at epoch 2, batch 3, with a concrete loss table. -/
theorem training_losses_complete_witness :
    2 < n_epochs ∧ 3 < n_batches ∧
    (training_losses (fun e b => e * 1000 + b : Nat → Nat → Nat)).length
      = n_epochs * n_batches :=
  ⟨by decide, by decide,
   (training_losses_complete (fun e b => e * 1000 + b : Nat → Nat → Nat)
      2 3 (by decide) (by decide)).1⟩

/-- The fed-state trace of one inner loop has one entry per batch. -/
lemma runBatchList_fst_length (step : Nat → Nat → LSTMState → LSTMState)
    (e : Nat) :
    ∀ (bs : List Nat) (cur : LSTMState),
      (runBatchList step e bs cur).1.length = bs.length
  | [], _ => rfl
  | b :: bs, cur => by
    simp only [runBatchList, List.length_cons]
    rw [runBatchList_fst_length step e bs (step e b cur)]

/-- The state fed to the `i`-th batch of the inner loop is the initial
state advanced through the preceding batch indices. -/
lemma runBatchList_fst_getElem (step : Nat → Nat → LSTMState → LSTMState)
    (e : Nat) :
    ∀ (bs : List Nat) (cur : LSTMState) (i : Nat), i < bs.length →
      (runBatchList step e bs cur).1[i]?
        = some (applySteps step e (bs.take i) cur)
  | [], _, i, hi => absurd hi (by simp)
  | b :: bs, cur, 0, _ => by
    simp only [runBatchList, List.getElem?_cons_zero, List.take_zero, applySteps]
  | b :: bs, cur, i + 1, hi => by
    simp only [runBatchList, List.getElem?_cons_succ, List.take_succ_cons]
    rw [runBatchList_fst_getElem step e bs (step e b cur) i
        (by simp only [List.length_cons] at hi; omega)]
    rfl

/-- Advancing through a concatenation of batch lists composes. -/
lemma applySteps_append (step : Nat → Nat → LSTMState → LSTMState) (e : Nat) :
    ∀ (l₁ l₂ : List Nat) (cur : LSTMState),
      applySteps step e (l₁ ++ l₂) cur
        = applySteps step e l₂ (applySteps step e l₁ cur)
  | [], _, _ => rfl
  | b :: bs, l₂, cur => by
    simp only [List.cons_append, applySteps]
    exact applySteps_append step e bs l₂ (step e b cur)

/-- Each epoch feeds exactly `n_batches` states. -/
lemma epochFedStates_length (step : Nat → Nat → LSTMState → LSTMState)
    (e : Nat) : (epochFedStates step e).length = n_batches := by
  unfold epochFedStates
  rw [runBatchList_fst_length step e (List.range n_batches) zeroLSTMState,
      List.length_range]

/-- The state fed to batch `b` of an epoch is `fedAt step e b`. -/
lemma epochFedStates_getElem (step : Nat → Nat → LSTMState → LSTMState)
    (e b : Nat) (hb : b < n_batches) :
    (epochFedStates step e)[b]? = some (fedAt step e b) := by
  unfold epochFedStates fedAt
  rw [runBatchList_fst_getElem step e (List.range n_batches) zeroLSTMState b
      (by rw [List.length_range]; exact hb)]
  rw [List.take_range, Nat.min_eq_left (Nat.le_of_lt hb)]

/-- C8: at the start of every epoch the state fed to the session is the
pair of zero `(batch_size, n_hidden) = (5, 20)` matrices; within an
epoch the state fed to batch `b + 1` is exactly the final state returned
by batch `b`; and no state is carried across an epoch boundary. -/
theorem state_threading (step : Nat → Nat → LSTMState → LSTMState)
    (e b : Nat) (he : e < n_epochs) (hb : b < n_batches) :
    batch_size = 5 ∧ n_hidden = 20 ∧
    (∀ r h, zeroLSTMState.1 r h = 0 ∧ zeroLSTMState.2 r h = 0) ∧
    (allFedStates step).length = n_epochs * n_batches ∧
    (allFedStates step)[e * n_batches]? = some zeroLSTMState ∧
    (allFedStates step)[e * n_batches + b]? = some (fedAt step e b) ∧
    (b + 1 < n_batches →
      (allFedStates step)[e * n_batches + (b + 1)]?
        = some (step e b (fedAt step e b))) := by
  have hlen : ∀ e', (epochFedStates step e').length = n_batches :=
    fun e' => epochFedStates_length step e'
  have hmain : ∀ b', b' < n_batches →
      (allFedStates step)[e * n_batches + b']? = some (fedAt step e b') := by
    intro b' hb'
    unfold allFedStates
    rw [getElem_flatMap_range _ n_batches hlen n_epochs e b' he hb']
    exact epochFedStates_getElem step e b' hb'
  refine ⟨rfl, rfl, fun r h => ⟨rfl, rfl⟩, ?_, ?_, hmain b hb, ?_⟩
  · unfold allFedStates
    exact length_flatMap_const _ n_batches hlen n_epochs
  · have h1 := hmain 0 (by decide)
    rw [Nat.add_zero] at h1
    exact h1
  · intro hb1
    have h2 := hmain (b + 1) hb1
    have h3 : fedAt step e (b + 1) = step e b (fedAt step e b) := by
      unfold fedAt
      rw [List.range_succ, applySteps_append]
      simp only [applySteps]
    rw [h2, h3]

/-- Witness for C8 at epoch 1, batch 2, with the identity session. -/
theorem state_threading_witness :
    1 < n_epochs ∧ 2 < n_batches ∧
    (allFedStates (fun _ _ s => s)).length = n_epochs * n_batches :=
  ⟨by decide, by decide,
   (state_threading (fun _ _ s => s) 1 2 (by decide) (by decide)).2.2.2.1⟩

/-- Running the cells before an erroring cell successfully and then
hitting the error terminates the run with exactly that error. -/
lemma runCells_append_error {σ ε : Type} (cl : σ → Except ε σ)
    (suf : List (σ → Except ε σ)) (err : ε) :
    ∀ (pre : List (σ → Except ε σ)) (s s' : σ),
      runCells pre s = Except.ok s' → cl s' = Except.error err →
      runCells (pre ++ cl :: suf) s = Except.error err
  | [], s, s', hpre, hcl => by
    have hss : s = s' := by
      simpa [runCells] using hpre
    subst hss
    simp [runCells, hcl]
  | c0 :: cls, s, s', hpre, hcl => by
    rw [List.cons_append]
    cases hc0 : c0 s with
    | error e2 =>
      rw [runCells, hc0] at hpre
      exact Except.noConfusion hpre
    | ok s2 =>
      rw [runCells, hc0] at hpre
      rw [runCells, hc0]
      exact runCells_append_error cl suf err cls s2 s' hpre hcl

/-- C7: the notebook has no error handling of its own: if any cell of
the notebook raises, the error propagates unchanged to the top level
and terminates the run, whatever was executed successfully before. -/
theorem notebook_error_propagates {σ ε : Type}
    (declarePh buildCell callRnn reshapeOut buildLossCell buildOptCell
     trainSession plotCell : σ → Except ε σ)
    (pre suf : List (σ → Except ε σ)) (cl : σ → Except ε σ)
    (s s' : σ) (err : ε)
    (hsplit : notebookCells declarePh buildCell callRnn reshapeOut
        buildLossCell buildOptCell trainSession plotCell = pre ++ cl :: suf)
    (hpre : runCells pre s = Except.ok s')
    (hcl : cl s' = Except.error err) :
    runCells (notebookCells declarePh buildCell callRnn reshapeOut
        buildLossCell buildOptCell trainSession plotCell) s
      = Except.error err := by
  rw [hsplit]
  exact runCells_append_error cl suf err pre s s' hpre hcl

/-- Witness for C7: a run whose training-session cell raises error 42
after six successful graph-construction cells ends with error 42. -/
theorem notebook_error_propagates_witness :
    runCells (notebookCells (σ := Nat) (ε := Nat)
        (fun s => Except.ok (s + 1)) (fun s => Except.ok (s + 1))
        (fun s => Except.ok (s + 1)) (fun s => Except.ok (s + 1))
        (fun s => Except.ok (s + 1)) (fun s => Except.ok (s + 1))
        (fun _ => Except.error 42) (fun s => Except.ok (s + 1))) 0
      = Except.error 42 :=
  notebook_error_propagates
    (fun s => Except.ok (s + 1)) (fun s => Except.ok (s + 1))
    (fun s => Except.ok (s + 1)) (fun s => Except.ok (s + 1))
    (fun s => Except.ok (s + 1)) (fun s => Except.ok (s + 1))
    (fun _ => Except.error 42) (fun s => Except.ok (s + 1))
    [fun s => Except.ok (s + 1), fun s => Except.ok (s + 1),
     fun s => Except.ok (s + 1), fun s => Except.ok (s + 1),
     fun s => Except.ok (s + 1), fun s => Except.ok (s + 1)]
    [fun s => Except.ok (s + 1)] (fun _ => Except.error 42) 0 6 42
    rfl rfl rfl
